import Mathlib

/-!
Verification development for the wearabouts core: a shallow embedding of the
location-resolution pipeline (geocode adapter, deduplication, top-pick
selection), the resilient request layer (retry with exponential backoff), and
the outfit rule engine (temperature bands, conditional add-ons, persona
substitutions), translated from the TypeScript source, together with theorems
settling the specified properties.

Numbers are modelled as exact rationals; the IEEE value NaN produced by the
JavaScript coercion Number(x) on missing or non-numeric input is modelled as
the value none of type Option Rat.
-/

/-- Truthiness of an optional JavaScript string: an absent field and the empty
string are both falsy. -/
def jsTruthy : Option String → Bool
  | none => false
  | some s => !(s == "")

/-- Check that the list starts with the given needle. -/
def listStartsWith : List Char → List Char → Bool
  | [], _ => true
  | _ :: _, [] => false
  | a :: as, b :: bs => a == b && listStartsWith as bs

/-- Check that the needle occurs contiguously somewhere in the haystack. -/
def listContainsSeq (needle : List Char) : List Char → Bool
  | [] => needle.isEmpty
  | c :: rest => listStartsWith needle (c :: rest) || listContainsSeq needle rest

/-- Model of the JavaScript hay.includes(needle) substring test. -/
def strIncludes (hay needle : String) : Bool :=
  listContainsSeq needle.data hay.data

/-- Model of the JavaScript s.toLowerCase() call, mapping the character
lowercase function over the string. -/
def strLower (s : String) : String :=
  String.mk (s.data.map Char.toLower)

/-- Generic first-occurrence deduplication: the JavaScript idiom of filtering a
list with a Set of already-seen keys keeps the first element carrying each key.
The accumulator holds the keys seen so far. -/
def dedupByKeyAux {α κ : Type} [DecidableEq κ] (key : α → κ) :
    List κ → List α → List α
  | _, [] => []
  | seen, a :: rest =>
    if key a ∈ seen then dedupByKeyAux key seen rest
    else a :: dedupByKeyAux key (key a :: seen) rest

/-- First-occurrence deduplication by a key function, starting from an empty
seen set. -/
def dedupByKey {α κ : Type} [DecidableEq κ] (key : α → κ) (l : List α) :
    List α :=
  dedupByKeyAux key [] l

/-! ## Geocode adapter and resolution pipeline (src route resolve, geocodeCandidates, toResolvedPlace) -/

/-- Place candidate produced by the extractor: a name plus optional region
(admin1) and country hints. -/
structure Candidate where
  name : String
  admin1 : Option String
  country : Option String
deriving DecidableEq

/-- Raw match returned by the geocoding lookup. Every field of the JSON payload
may be absent. A coordinate field is modelled as Option (Option Rat): the outer
none means the field is missing, some none means it is present but not
coercible to a number (Number(x) gives NaN), and some (some q) means it
coerces to the number q. -/
structure GeoMatch where
  name : Option String
  admin1 : Option String
  country : Option String
  country_code : Option String
  latitude : Option (Option ℚ)
  longitude : Option (Option ℚ)
deriving DecidableEq

/-- Resolved place as produced by toResolvedPlace. Coordinates are Option Rat,
where none models NaN. -/
structure ResolvedPlace where
  name : String
  admin1 : Option String
  country : Option String
  lat : Option ℚ
  lon : Option ℚ
  confidence : ℚ
deriving DecidableEq

/-- Coercion performed by toResolvedPlace on a raw coordinate field:
a numeric value passes through, a missing field or a non-numeric string
becomes NaN (modelled as none). -/
def coerceNum : Option (Option ℚ) → Option ℚ
  | none => none
  | some v => v

/-- Model of toResolvedPlace: build a ResolvedPlace from a raw geocoding match
and a confidence value. No match is ever dropped here; invalid coordinates
simply become NaN. -/
def toResolvedPlace (raw : GeoMatch) (confidence : ℚ) : ResolvedPlace :=
  { name := raw.name.getD ""
    admin1 := raw.admin1
    country := raw.country
    lat := coerceNum raw.latitude
    lon := coerceNum raw.longitude
    confidence := confidence }

/-- Model of the JavaScript field?.toLowerCase().includes(hint.toLowerCase())
test on an optional field: an absent field is falsy. -/
def optIncludesLower (field : Option String) (hint : String) : Bool :=
  match field with
  | none => false
  | some s => strIncludes (strLower s) (strLower hint)

/-- Hint filter predicate applied to a single geocoding match (the body of the
items.filter call): the country hint must be contained in the match country
name (case-insensitive) or equal its country code, and the admin1 hint must be
contained in the match admin1. An absent hint imposes no constraint. -/
def hintMatch (c : Candidate) (item : GeoMatch) : Bool :=
  let countryMatch :=
    !(jsTruthy c.country) ||
      (match c.country with
       | none => false
       | some hint =>
         optIncludesLower item.country hint ||
           (item.country_code.map strLower == some (strLower hint)))
  let admin1Match :=
    !(jsTruthy c.admin1) ||
      (match c.admin1 with
       | none => false
       | some hint => optIncludesLower item.admin1 hint)
  countryMatch && admin1Match

/-- Hint-based filtering of the lookup matches: applied only when the candidate
carries a truthy country or admin1 hint. When the filter eliminates every
match, the empty list is what remains (there is no fall-back to the unfiltered
list in the source). -/
def filterByHints (c : Candidate) (items : List GeoMatch) : List GeoMatch :=
  if jsTruthy c.country || jsTruthy c.admin1 then items.filter (hintMatch c)
  else items

/-- Model of the per-candidate body of the geocodeCandidates loop. The lookup
argument is the outcome of the geocoding call for this candidate: none models
a transport failure or non-ok response (the source skips the candidate), and
some items models an ok response whose results array parsed to items. Of the
filtered matches the first becomes the primary (confidence 0.9) and the next
up to two become secondaries (confidence 0.6). -/
def processCandidate (c : Candidate) (lookup : Option (List GeoMatch)) :
    List ResolvedPlace :=
  match lookup with
  | none => []
  | some items =>
    match filterByHints c items with
    | [] => []
    | primary :: more =>
      toResolvedPlace primary (mkRat 9 10) ::
        (more.take 2).map (fun m => toResolvedPlace m (mkRat 6 10))

/-- Accumulated results of the geocodeCandidates loop before deduplication:
the concatenation, in candidate order, of each candidate places. -/
def rawResults (pairs : List (Candidate × Option (List GeoMatch))) :
    List ResolvedPlace :=
  pairs.flatMap (fun pr => processCandidate pr.1 pr.2)

/-- Model of the string produced by q.toFixed(3) on one coordinate: none for
NaN (the string NaN), otherwise the sign of the value together with the
magnitude rounded half to 3 decimal places. toFixed renders the sign and then
the rounding of the absolute value, picking the larger candidate at ties, so
the digit part is the half-up rounding of 1000 times the absolute value: with
q = plus or minus n / d in lowest terms this is the natural number
floor(1000 n / d + 1 / 2) = (2000 n + d) / (2 d) in integer division. Two
coordinates produce the same toFixed(3) string exactly when this key agrees. -/
def fixedKey : Option ℚ → Option (Bool × ℕ)
  | none => none
  | some q => some (decide (q < 0), (2000 * q.num.natAbs + q.den) / (2 * q.den))

/-- Deduplication key of a resolved place: the pair of toFixed(3) strings of
its coordinates. -/
def placeKey (p : ResolvedPlace) : Option (Bool × ℕ) × Option (Bool × ℕ) :=
  (fixedKey p.lat, fixedKey p.lon)

/-- Model of geocodeCandidates: accumulate each candidate places, then
deduplicate by the rounded-coordinate key, keeping first occurrences. -/
def geocodeCandidates (pairs : List (Candidate × Option (List GeoMatch))) :
    List ResolvedPlace :=
  dedupByKey placeKey (rawResults pairs)

/-- Comparator order used by the response: the JavaScript comparator
(a, b) => b.confidence - a.confidence sorts by descending confidence. -/
def confGE (a b : ResolvedPlace) : Prop :=
  b.confidence ≤ a.confidence

instance : DecidableRel confGE :=
  fun a b => inferInstanceAs (Decidable (b.confidence ≤ a.confidence))

/-- Stable descending-confidence sort of the geocoded list. JavaScript
Array.prototype.sort is required to be stable, and a stable sort under a total
preorder is unique, so insertion sort is an exact model. -/
def sortByConfidence (l : List ResolvedPlace) : List ResolvedPlace :=
  List.insertionSort confGE l

/-- Model of the response assembly in the resolve route: sort the geocoded
places by confidence descending, the first is the top place and the next up to
4 are the alternate candidates. Returns none when the geocoded list is empty
(the 404 branch). -/
def resolveOutput (geocoded : List ResolvedPlace) :
    Option (ResolvedPlace × List ResolvedPlace) :=
  match sortByConfidence geocoded with
  | [] => none
  | top :: rest => some (top, rest.take 4)

/-- Model of the extraction attempt loop of the resolve route: each element of
the list is the geocoding input of one attempt (the extracted candidates paired
with their lookup outcomes); the loop stops at the first attempt whose geocoded
list is non-empty, and yields the empty list when every attempt fails. -/
def resolveAttempts :
    List (List (Candidate × Option (List GeoMatch))) → List ResolvedPlace
  | [] => []
  | pairs :: rest =>
    match geocodeCandidates pairs with
    | [] => resolveAttempts rest
    | g => g

/-- Validation applied by ResolvedPlaceSchema.parse to one place of the final
response: z.number() rejects NaN, so the place passes exactly when both
coordinates are numeric. The confidence values 0.9 and 0.6 always satisfy the
min(0).max(1) bound. -/
def placeNumericOk (p : ResolvedPlace) : Bool :=
  p.lat.isSome && p.lon.isSome

/-- End-to-end model of a resolve call: run the attempts, assemble the
response, then validate it against ResolvedPlaceSchema. An empty geocoded list
yields the 404 error payload; a validation failure raises ZodError, which the
route maps to a 400 response. -/
def postResolve (attempts : List (List (Candidate × Option (List GeoMatch)))) :
    Except ℕ (ResolvedPlace × List ResolvedPlace) :=
  match resolveOutput (resolveAttempts attempts) with
  | none => Except.error 404
  | some (top, rest) =>
    if placeNumericOk top && rest.all placeNumericOk then Except.ok (top, rest)
    else Except.error 400

/-! ## Extractor fallback candidate (resolve route, no-tool-call branch) -/

/-- Delimiter class of the split regular expression [,\s]+ : a comma or an
ASCII whitespace character. -/
def isDelimChar (ch : Char) : Bool :=
  ch == ',' || ch == ' ' || ch == '\t' || ch == '\n' || ch == '\r' ||
    ch == '\x0b' || ch == '\x0c'

/-- First element of query.split(/[,\s]+/) : the maximal run of non-delimiter
characters at the start of the string (empty when the string starts with a
delimiter). -/
def jsSplitFirst (q : String) : String :=
  String.mk (q.data.takeWhile (fun ch => !(isDelimChar ch)))

/-- Name of the synthesized fallback candidate:
query.split(/[,\s]+/)[0] || query. The empty string is falsy, so a query that
starts with a delimiter falls back to the whole raw query. -/
def fallbackName (q : String) : String :=
  if jsSplitFirst q == "" then q else jsSplitFirst q

/-- Model of the extractor fallback in the resolve route: when the extractor
yields no usable candidates, a single candidate with no hints is synthesized
from the query; otherwise the extracted candidates pass through. -/
def fallbackCandidates (query : String) (extracted : List Candidate) :
    List Candidate :=
  if extracted.length == 0 then
    [{ name := fallbackName query, admin1 := none, country := none }]
  else extracted

/-- Spec reading of the fallback name, defined for comparison with the source
behaviour: the first whitespace- or comma-delimited token of the raw query,
skipping leading delimiters. -/
def firstTokenSpec (q : String) : String :=
  String.mk ((q.data.dropWhile isDelimChar).takeWhile (fun ch => !(isDelimChar ch)))

/-! ## Resilient request layer (fetchWithRetry) -/

/-- Outcome of one fetch attempt: an HTTP response with the given status, or a
transport-level error identified by a numeric label. -/
inductive Outcome where
  | resp (status : ℕ)
  | err (e : ℕ)
deriving DecidableEq

/-- Final result of fetchWithRetry: a returned response, a thrown error, or
the generic failure thrown after the loop when neither a response nor an error
was recorded. -/
inductive RetryResult where
  | ret (status : ℕ)
  | thrown (e : ℕ)
  | genericFailure
deriving DecidableEq

/-- Configuration of fetchWithRetry. The retryOn predicate is split into its
two call shapes: retryOn(response, null) and retryOn(null, error). -/
structure RetryCfg where
  maxRetries : ℕ
  initialDelay : ℕ
  maxDelay : ℕ
  retryOnResp : ℕ → Bool
  retryOnErr : ℕ → Bool

/-- Default retry predicate of the request layer: retry every transport error,
and retry a response with status 500 or above or status 429. -/
def defaultRetryOnResp (status : ℕ) : Bool :=
  decide (500 ≤ status) || decide (status = 429)

/-- Response.ok of the Fetch standard: status in the inclusive range 200-299. -/
def respOk (status : ℕ) : Bool :=
  decide (200 ≤ status) && decide (status ≤ 299)

/-- Model of the retry loop of fetchWithRetry. The trace lists the outcome of
each attempt that would be performed; the numeric state is the attempt index,
and the two options carry lastResponse and lastError exactly as the source
does (lastResponse is recorded only when a response triggers a retry, lastError
on every caught error). The first component of the result collects the sleep
durations in order; the second is the final outcome. An exhausted trace models
the loop ending, after which the source returns lastResponse if recorded,
otherwise throws lastError or the generic failure. -/
def runRetryAux (cfg : RetryCfg) :
    ℕ → Option ℕ → Option ℕ → List Outcome → List ℕ × RetryResult
  | _, lastR, lastE, [] =>
    match lastR with
    | some s => ([], RetryResult.ret s)
    | none =>
      match lastE with
      | some e => ([], RetryResult.thrown e)
      | none => ([], RetryResult.genericFailure)
  | attempt, lastR, lastE, o :: rest =>
    match o with
    | Outcome.resp s =>
      if !(respOk s) && cfg.retryOnResp s && decide (attempt < cfg.maxRetries) then
        let delay := min (cfg.initialDelay * 2 ^ attempt) cfg.maxDelay
        let actualDelay := if s = 429 then delay * 2 else delay
        let next := runRetryAux cfg (attempt + 1) (some s) lastE rest
        (actualDelay :: next.1, next.2)
      else ([], RetryResult.ret s)
    | Outcome.err e =>
      if cfg.retryOnErr e && decide (attempt < cfg.maxRetries) then
        let delay := min (cfg.initialDelay * 2 ^ attempt) cfg.maxDelay
        let next := runRetryAux cfg (attempt + 1) lastR (some e) rest
        (delay :: next.1, next.2)
      else ([], RetryResult.thrown e)

/-- Model of fetchWithRetry on a trace of attempt outcomes: the loop performs
at most maxRetries + 1 attempts starting from attempt 0 with no recorded
response or error. -/
def fetchWithRetry (cfg : RetryCfg) (trace : List Outcome) :
    List ℕ × RetryResult :=
  runRetryAux cfg 0 none none (trace.take (cfg.maxRetries + 1))

/-- Backoff delay computed for a retry after attempt k (0-indexed). -/
def backoffDelay (cfg : RetryCfg) (k : ℕ) : ℕ :=
  min (cfg.initialDelay * 2 ^ k) cfg.maxDelay

/-- Sleep duration the source performs after the failing attempt k with the
given outcome: the backoff delay, doubled once more when the failing response
has status 429 (the error path never doubles, having no response). -/
def sleepFor (cfg : RetryCfg) (k : ℕ) : Outcome → ℕ
  | Outcome.resp s => if s = 429 then backoffDelay cfg k * 2 else backoffDelay cfg k
  | Outcome.err _ => backoffDelay cfg k

/-- An outcome that triggers another loop iteration whenever the retry budget
allows: a non-ok response accepted by the retry predicate, or an error accepted
by it. -/
def retryable (cfg : RetryCfg) : Outcome → Bool
  | Outcome.resp s => !(respOk s) && cfg.retryOnResp s
  | Outcome.err e => cfg.retryOnErr e

/-- Result dictated by the last outcome in a trace: return its response or
throw its error. -/
def lastOutcomeResult (trace : List Outcome) : RetryResult :=
  match trace.getLast? with
  | some (Outcome.resp s) => RetryResult.ret s
  | some (Outcome.err e) => RetryResult.thrown e
  | none => RetryResult.genericFailure

/-! ## Outfit rule engine (generate-outfits route) -/

/-- Weather condition enum of the DayForecast schema. -/
inductive WeatherCondition where
  | sun | clouds | rain | snow | mixed
deriving DecidableEq

/-- A day forecast as consumed by the rule engine. -/
structure DayForecast where
  date : String
  highF : ℚ
  lowF : ℚ
  precipChance : ℚ
  windMph : ℚ
  uvIndex : ℚ
  condition : WeatherCondition
deriving DecidableEq

/-- A day of outfit advice: the deterministic item list plus an optional note. -/
structure DayAdvice where
  date : String
  outfit : List String
  notes : Option String
deriving DecidableEq

/-- One temperature band: a ceiling and its base item list. -/
structure Band where
  max : ℚ
  items : List String
deriving DecidableEq

/-- Temperature bands of the rule engine, in ascending ceiling order. -/
def temperatureBands : List Band :=
  [ { max := 40, items := ["insulated coat", "thermal base layer", "beanie", "warm socks", "insulated boots"] }
  , { max := 55, items := ["sweater", "medium jacket", "jeans", "closed shoes"] }
  , { max := 72, items := ["tee or long-sleeve", "light layer", "pants or jeans"] }
  , { max := 84, items := ["breathable tee", "light pants or shorts", "comfortable shoes"] }
  , { max := 200, items := ["ultra-light top", "linen or tech shorts", "breathable shoes"] } ]

/-- Replacement table of the minimal persona. -/
def minimalReplacements (item : String) : Option String :=
  if item == "medium jacket" then some ("versatile jacket")
  else if item == "light layer" then some ("simple cardigan")
  else if item == "breathable tee" then some ("plain tee")
  else none

/-- Replacement table of the outdoorsy persona. -/
def outdoorsyReplacements (item : String) : Option String :=
  if item == "medium jacket" then some ("technical fleece")
  else if item == "light layer" then some ("packable vest")
  else if item == "comfortable shoes" then some ("trail shoes")
  else if item == "breathable shoes" then some ("hiking sandals")
  else none

/-- Replacement table of the street persona. -/
def streetReplacements (item : String) : Option String :=
  if item == "medium jacket" then some ("bomber or denim jacket")
  else if item == "beanie" then some ("stylish cap")
  else if item == "comfortable shoes" then some ("sneakers")
  else if item == "light pants" then some ("cargo pants")
  else none

/-- Replacement table of the business persona. -/
def businessReplacements (item : String) : Option String :=
  if item == "tee or long-sleeve" then some ("button-up shirt")
  else if item == "light pants or shorts" then some ("chinos")
  else if item == "comfortable shoes" then some ("loafers or oxfords")
  else if item == "ultra-light top" then some ("linen shirt")
  else none

/-- Persona adjustment lookup: the table for one of the four known personas,
none for any other string. -/
def personaAdjustments (p : String) : Option (String → Option String) :=
  if p == "minimal" then some minimalReplacements
  else if p == "outdoorsy" then some outdoorsyReplacements
  else if p == "street" then some streetReplacements
  else if p == "business" then some businessReplacements
  else none

/-- Base item list of generateOutfitItems: the items of the first band whose
ceiling is at least the day high temperature, or the fixed fallback list when
no band matches. -/
def baseItemsFor (day : DayForecast) : List String :=
  match temperatureBands.find? (fun b => decide (day.highF ≤ b.max)) with
  | some b => b.items
  | none => ["comfortable clothes"]

/-- Conditional add-on items of generateOutfitItems, in the fixed check order
of the source. -/
def additionalItemsFor (day : DayForecast) : List String :=
  (if (40 : ℚ) ≤ day.precipChance then ["waterproof shell", "water-resistant shoes"] else []) ++
  (if (18 : ℚ) ≤ day.windMph then ["windbreaker"] else []) ++
  (if (7 : ℚ) ≤ day.uvIndex then ["sun hat", "sunglasses", "sunscreen"] else []) ++
  (if day.lowF ≤ (38 : ℚ) then ["gloves", "warm scarf"] else []) ++
  (if day.lowF ≤ (50 : ℚ) ∧ (65 : ℚ) ≤ day.highF then ["packable layer"] else [])

/-- Persona substitution step of generateOutfitItems: when a persona names one
of the four adjustment tables, replace each item that the table maps,
item by item; otherwise the list passes through unchanged. -/
def applyPersona (persona : Option String) (allItems : List String) :
    List String :=
  match persona with
  | none => allItems
  | some p =>
    match personaAdjustments p with
    | none => allItems
    | some repl => allItems.map (fun item => (repl item).getD item)

/-- Model of generateOutfitItems: select the first band whose ceiling is at
least the high temperature (falling back to a fixed list when none matches),
append the conditional add-ons in their fixed check order, deduplicate keeping
first occurrences (Array.from(new Set(...))), and finally apply the persona
replacement table item by item when one applies. -/
def generateOutfitItems (day : DayForecast) (persona : Option String) :
    List String :=
  applyPersona persona (dedupByKey id (baseItemsFor day ++ additionalItemsFor day))

/-- Fallback note used for every day when the notes-generation call fails. -/
def fallbackNote : String :=
  "Dress comfortably for the weather conditions."

/-- Model of generateNotes: on success the generated notes are returned, on
any failure one generic fallback note per day is returned. The argument n is
the number of days. -/
def generateNotesResult (n : ℕ) (llm : Option (List String)) : List String :=
  match llm with
  | some notes => notes
  | none => List.replicate n fallbackNote

/-- Model of the JavaScript expression notes[index] || undefined: an absent
entry and the empty string both become undefined. -/
def jsOrUndefined : Option String → Option String
  | none => none
  | some s => if s == "" then none else some s

/-- Assembly of the final outfits array: each day record keeps its date and its
item list, and is given the note at its index when one exists. -/
def buildAdvice (notes : List String) :
    ℕ → List (DayForecast × List String) → List DayAdvice
  | _, [] => []
  | i, (d, items) :: rest =>
    { date := d.date, outfit := items, notes := jsOrUndefined (notes.get? i) } ::
      buildAdvice notes (i + 1) rest

/-- End-to-end model of the generate-outfits route: compute the deterministic
item list for each day, obtain the notes (the llm argument is the outcome of
the notes-generation call, none modelling its failure), and combine them. -/
def generateOutfits (days : List DayForecast) (persona : Option String)
    (llm : Option (List String)) : List DayAdvice :=
  let outfitDays := days.map (fun d => (d, generateOutfitItems d persona))
  let notes := generateNotesResult days.length llm
  buildAdvice notes 0 outfitDays

/-! ## Concrete inputs used by the per-claim witnesses and counterexamples -/

/-- Geocoding match used by the C1 counterexample: a unique-key primary. -/
def c1mA : GeoMatch :=
  { name := some ("Alpha"), admin1 := none, country := some ("United States")
  , country_code := some ("US")
  , latitude := some (some (mkRat 407128 10000))
  , longitude := some (some (mkRat (-740060) 10000)) }

/-- Geocoding match used by the C1 counterexample: the secondary of the first
candidate, whose coordinates round to the key of c1mC. -/
def c1mB : GeoMatch :=
  { name := some ("Beta"), admin1 := none, country := some ("United Kingdom")
  , country_code := some ("GB")
  , latitude := some (some (mkRat 515074 10000))
  , longitude := some (some (mkRat (-1278) 10000)) }

/-- Geocoding match used by the C1 counterexample: the primary of the second
candidate, sharing the rounded key with c1mB at a higher confidence. -/
def c1mC : GeoMatch :=
  { name := some ("Gamma"), admin1 := none, country := some ("United Kingdom")
  , country_code := some ("GB")
  , latitude := some (some (mkRat 515070 10000))
  , longitude := some (some (mkRat (-1280) 10000)) }

/-- Geocoding input of the C1 counterexample resolve call. -/
def c1pairs : List (Candidate × Option (List GeoMatch)) :=
  [ ({ name := "A", admin1 := none, country := none }, some [c1mA, c1mB])
  , ({ name := "B", admin1 := none, country := none }, some [c1mC]) ]

deriving instance DecidableEq for Except

/-- Geocoding match used by the C4 witness. -/
def c4m : GeoMatch :=
  { name := some ("Paris"), admin1 := none, country := some ("France")
  , country_code := some ("FR")
  , latitude := some (some (mkRat 488566 10000))
  , longitude := some (some (mkRat 23522 10000)) }

/-- Geocoding input of the C4 witness resolve call. -/
def c4pairs : List (Candidate × Option (List GeoMatch)) :=
  [({ name := "Paris", admin1 := none, country := none }, some [c4m])]

/-- Candidate used by the C2 counterexample: a country hint that matches no
returned item. -/
def c2cand : Candidate :=
  { name := "Berlin", admin1 := none, country := some ("France") }

/-- Geocoding match used by the C2 counterexample: a German match that the
France hint filters out. -/
def c2item : GeoMatch :=
  { name := some ("Berlin"), admin1 := some ("Berlin"), country := some ("Germany")
  , country_code := some ("DE")
  , latitude := some (some (mkRat 5252 100))
  , longitude := some (some (mkRat 13405 1000)) }

/-- Candidate used by the C3 counterexample (no hints). -/
def c3cand : Candidate :=
  { name := "Springfield", admin1 := none, country := none }

/-- Geocoding match used by the C3 counterexample: the latitude field is
missing, so Number() coerces it to NaN. -/
def c3bad : GeoMatch :=
  { name := some ("Springfield"), admin1 := none, country := none
  , country_code := none
  , latitude := none
  , longitude := some (some (mkRat (-896) 10)) }

/-- Geocoding match used by the C3 counterexample: fully numeric. -/
def c3good : GeoMatch :=
  { name := some ("Springfield"), admin1 := none, country := none
  , country_code := none
  , latitude := some (some (mkRat 398 10))
  , longitude := some (some (mkRat (-896) 10)) }

/-- Geocoding input of the C3 counterexample resolve call. -/
def c3pairs : List (Candidate × Option (List GeoMatch)) :=
  [(c3cand, some [c3bad, c3good])]

/-- Geocoding match used by the C3 witness: fully numeric. -/
def c3wm : GeoMatch :=
  { name := some ("Lisbon"), admin1 := none, country := some ("Portugal")
  , country_code := some ("PT")
  , latitude := some (some (mkRat 387223 10000))
  , longitude := some (some (mkRat (-91393) 10000)) }

/-- Geocoding input of the C3 witness resolve call. -/
def c3wpairs : List (Candidate × Option (List GeoMatch)) :=
  [({ name := "Lisbon", admin1 := none, country := none }, some [c3wm])]

/-- Retry configuration used by the C5 witness. -/
def c5cfg : RetryCfg :=
  { maxRetries := 3, initialDelay := 500, maxDelay := 16000
  , retryOnResp := defaultRetryOnResp, retryOnErr := fun _ => true }

/-- Retry configuration used by the C6 counterexample and witness. -/
def c6cfg : RetryCfg :=
  { maxRetries := 1, initialDelay := 100, maxDelay := 16000
  , retryOnResp := defaultRetryOnResp, retryOnErr := fun _ => true }

/-- Day forecast used by the C10 witness: hotter than every band ceiling. -/
def c10day : DayForecast :=
  { date := "2026-07-04", highF := 250, lowF := 80, precipChance := 0
  , windMph := 0, uvIndex := 0, condition := WeatherCondition.sun }

/-! ## Shared lemmas about deduplication, sorting and the response assembly -/

theorem dedupByKeyAux_sublist {α κ : Type} [DecidableEq κ] (key : α → κ) :
    ∀ (l : List α) (seen : List κ), (dedupByKeyAux key seen l).Sublist l := by
  intro l
  induction l with
  | nil => intro seen; simp [dedupByKeyAux]
  | cons a rest ih =>
    intro seen
    by_cases h : key a ∈ seen
    · simp only [dedupByKeyAux, if_pos h]
      exact (ih seen).cons a
    · simp only [dedupByKeyAux, if_neg h]
      exact (ih (key a :: seen)).cons₂ a

theorem dedupByKeyAux_key_not_seen {α κ : Type} [DecidableEq κ] (key : α → κ) :
    ∀ (l : List α) (seen : List κ) (x : α),
      x ∈ dedupByKeyAux key seen l → key x ∉ seen := by
  intro l
  induction l with
  | nil => intro seen x hx; simp [dedupByKeyAux] at hx
  | cons a rest ih =>
    intro seen x hx
    by_cases h : key a ∈ seen
    · simp only [dedupByKeyAux, if_pos h] at hx
      exact ih seen x hx
    · simp only [dedupByKeyAux, if_neg h] at hx
      rcases List.mem_cons.mp hx with hx | hx
      · subst hx; exact h
      · have := ih (key a :: seen) x hx
        intro hmem
        exact this (List.mem_cons_of_mem _ hmem)

theorem dedupByKeyAux_keys_nodup {α κ : Type} [DecidableEq κ] (key : α → κ) :
    ∀ (l : List α) (seen : List κ),
      ((dedupByKeyAux key seen l).map key).Nodup := by
  intro l
  induction l with
  | nil => intro seen; simp [dedupByKeyAux]
  | cons a rest ih =>
    intro seen
    by_cases h : key a ∈ seen
    · simp only [dedupByKeyAux, if_pos h]
      exact ih seen
    · simp only [dedupByKeyAux, if_neg h, List.map_cons, List.nodup_cons]
      constructor
      · intro hmem
        rcases List.mem_map.mp hmem with ⟨x, hx, hkx⟩
        have := dedupByKeyAux_key_not_seen key rest (key a :: seen) x hx
        exact this (hkx ▸ List.mem_cons_self _ _)
      · exact ih (key a :: seen)

theorem dedupByKeyAux_first_occurrence {α κ : Type} [DecidableEq κ] (key : α → κ) :
    ∀ (l : List α) (seen : List κ) (x : α),
      x ∈ dedupByKeyAux key seen l →
      l.find? (fun a => decide (key a = key x)) = some x := by
  intro l
  induction l with
  | nil => intro seen x hx; simp [dedupByKeyAux] at hx
  | cons a rest ih =>
    intro seen x hx
    by_cases h : key a ∈ seen
    · simp only [dedupByKeyAux, if_pos h] at hx
      have hfind := ih seen x hx
      have hne : key a ≠ key x := by
        intro hk
        exact dedupByKeyAux_key_not_seen key rest seen x hx (hk ▸ h)
      simp [List.find?, hne, hfind]
    · simp only [dedupByKeyAux, if_neg h] at hx
      rcases List.mem_cons.mp hx with hx | hx
      · subst hx
        simp [List.find?]
      · have hfind := ih (key a :: seen) x hx
        have hne : key a ≠ key x := by
          intro hk
          exact dedupByKeyAux_key_not_seen key rest (key a :: seen) x hx
            (hk ▸ List.mem_cons_self _ _)
        simp [List.find?, hne, hfind]

theorem dedupByKey_keys_nodup {α κ : Type} [DecidableEq κ] (key : α → κ)
    (l : List α) : ((dedupByKey key l).map key).Nodup :=
  dedupByKeyAux_keys_nodup key l []

theorem dedupByKey_first_occurrence {α κ : Type} [DecidableEq κ] (key : α → κ)
    (l : List α) (x : α) (hx : x ∈ dedupByKey key l) :
    l.find? (fun a => decide (key a = key x)) = some x :=
  dedupByKeyAux_first_occurrence key l [] x hx

theorem sortByConfidence_perm (l : List ResolvedPlace) :
    (sortByConfidence l).Perm l :=
  List.perm_insertionSort confGE l

theorem resolveOutput_sublist (geocoded : List ResolvedPlace)
    (top : ResolvedPlace) (rest : List ResolvedPlace)
    (h : resolveOutput geocoded = some (top, rest)) :
    (top :: rest).Sublist (sortByConfidence geocoded) := by
  unfold resolveOutput at h
  rcases hs : sortByConfidence geocoded with _ | ⟨t, r⟩
  · rw [hs] at h; simp at h
  · rw [hs] at h
    simp only [Option.some.injEq, Prod.mk.injEq] at h
    obtain ⟨ht, hr⟩ := h
    subst ht; subst hr
    exact (List.take_sublist 4 r).cons₂ t

theorem geocodeCandidates_keys_nodup
    (pairs : List (Candidate × Option (List GeoMatch))) :
    ((geocodeCandidates pairs).map placeKey).Nodup :=
  dedupByKey_keys_nodup placeKey (rawResults pairs)

theorem resolveAttempts_keys_nodup
    (attempts : List (List (Candidate × Option (List GeoMatch)))) :
    ((resolveAttempts attempts).map placeKey).Nodup := by
  induction attempts with
  | nil => simp [resolveAttempts]
  | cons pairs rest ih =>
    rcases hg : geocodeCandidates pairs with _ | ⟨a, l⟩
    · simpa [resolveAttempts, hg] using ih
    · have : resolveAttempts (pairs :: rest) = geocodeCandidates pairs := by
        simp [resolveAttempts, hg]
      rw [this]
      exact geocodeCandidates_keys_nodup pairs

theorem resolveOutput_keys_nodup (geocoded : List ResolvedPlace)
    (top : ResolvedPlace) (rest : List ResolvedPlace)
    (h : resolveOutput geocoded = some (top, rest))
    (hg : (geocoded.map placeKey).Nodup) :
    ((top :: rest).map placeKey).Nodup := by
  have hperm : ((sortByConfidence geocoded).map placeKey).Perm (geocoded.map placeKey) :=
    (sortByConfidence_perm geocoded).map placeKey
  have hsorted : ((sortByConfidence geocoded).map placeKey).Nodup :=
    hperm.symm.nodup hg
  exact ((resolveOutput_sublist geocoded top rest h).map placeKey).nodup hsorted

/-! ## C4: deduplication invariant of the resolve response -/

/-- C4: for every resolve call that succeeds, the returned list of Resolved
Places (the top place together with the alternate candidates) never contains
two entries whose coordinates round to the same 3-decimal-place key. -/
theorem resolve_dedup_invariant
    (attempts : List (List (Candidate × Option (List GeoMatch))))
    (top : ResolvedPlace) (rest : List ResolvedPlace)
    (h : resolveOutput (resolveAttempts attempts) = some (top, rest)) :
    ((top :: rest).map placeKey).Nodup :=
  resolveOutput_keys_nodup _ _ _ h (resolveAttempts_keys_nodup attempts)

/-- Witness for C4 at a concrete resolve call. -/
theorem resolve_dedup_invariant_witness :
    resolveOutput (resolveAttempts [c4pairs]) =
      some (toResolvedPlace c4m (mkRat 9 10), []) ∧
    (([toResolvedPlace c4m (mkRat 9 10)] : List ResolvedPlace).map placeKey).Nodup :=
  ⟨by decide,
    resolve_dedup_invariant [c4pairs] (toResolvedPlace c4m (mkRat 9 10)) [] (by decide)⟩

/-! ## C1: confidence kept for duplicate rounded keys -/

/-- C1 counterexample: in this resolve call the places geocoded from c1mB
(confidence 0.6, secondary of the first candidate) and from c1mC (confidence
0.9, primary of the second candidate) round to the same 3-decimal key, yet the
returned result keeps the first-accumulated entry, whose confidence 0.6 is the
lower of the two — not the higher, as the claim states. -/
theorem resolve_duplicate_key_keeps_first_not_higher :
    placeKey (toResolvedPlace c1mB (mkRat 6 10)) =
      placeKey (toResolvedPlace c1mC (mkRat 9 10)) ∧
    placeKey (toResolvedPlace c1mA (mkRat 9 10)) ≠
      placeKey (toResolvedPlace c1mB (mkRat 6 10)) ∧
    (rawResults c1pairs).map ResolvedPlace.confidence =
      [mkRat 9 10, mkRat 6 10, mkRat 9 10] ∧
    resolveOutput (geocodeCandidates c1pairs) =
      some (toResolvedPlace c1mA (mkRat 9 10), [toResolvedPlace c1mB (mkRat 6 10)]) ∧
    (toResolvedPlace c1mB (mkRat 6 10)).confidence = mkRat 6 10 ∧
    mkRat 6 10 < mkRat 9 10 := by
  refine ⟨by decide, by decide, by decide, by decide, by decide, by decide⟩

/-- C1 amended: when geocoded places share a rounded 3-decimal key, the
returned result contains at most one Resolved Place at that key, and every
returned place is the first-accumulated geocoded place carrying its key, so
the confidence kept at a duplicated key is that of the first accumulated
occurrence (the higher one only when the first occurrence happens to carry the
higher confidence). -/
theorem resolve_duplicate_key_first_occurrence
    (pairs : List (Candidate × Option (List GeoMatch)))
    (top : ResolvedPlace) (rest : List ResolvedPlace)
    (h : resolveOutput (geocodeCandidates pairs) = some (top, rest)) :
    ((top :: rest).map placeKey).Nodup ∧
    ∀ r ∈ top :: rest,
      (rawResults pairs).find? (fun p => decide (placeKey p = placeKey r)) =
        some r := by
  constructor
  · exact resolveOutput_keys_nodup _ _ _ h (geocodeCandidates_keys_nodup pairs)
  · intro r hr
    have hsorted : r ∈ sortByConfidence (geocodeCandidates pairs) :=
      (resolveOutput_sublist _ _ _ h).subset hr
    have hmem : r ∈ geocodeCandidates pairs :=
      (sortByConfidence_perm (geocodeCandidates pairs)).subset hsorted
    exact dedupByKey_first_occurrence placeKey (rawResults pairs) r hmem

/-- Witness for the amended C1 at the counterexample input: the kept entry at
the duplicated key is the first occurrence in the accumulated results. -/
theorem resolve_duplicate_key_first_occurrence_witness :
    resolveOutput (geocodeCandidates c1pairs) =
      some (toResolvedPlace c1mA (mkRat 9 10), [toResolvedPlace c1mB (mkRat 6 10)]) ∧
    (((toResolvedPlace c1mA (mkRat 9 10) :: [toResolvedPlace c1mB (mkRat 6 10)]).map placeKey).Nodup ∧
      ∀ r ∈ toResolvedPlace c1mA (mkRat 9 10) :: [toResolvedPlace c1mB (mkRat 6 10)],
        (rawResults c1pairs).find? (fun p => decide (placeKey p = placeKey r)) =
          some r) :=
  ⟨by decide,
    resolve_duplicate_key_first_occurrence c1pairs
      (toResolvedPlace c1mA (mkRat 9 10)) [toResolvedPlace c1mB (mkRat 6 10)]
      (by decide)⟩

/-! ## C2: behaviour when the hint filter eliminates every match -/

/-- C2 counterexample: the hint filter eliminates the only (non-empty) lookup
match, and the candidate then contributes zero resolved places — the adapter
does not fall back to the unfiltered matches and take their first as a 0.9
primary, as the claim states. -/
theorem geocode_filter_eliminates_all_no_fallback :
    filterByHints c2cand [c2item] = [] ∧
    ([c2item] : List GeoMatch) ≠ [] ∧
    processCandidate c2cand (some [c2item]) = [] ∧
    processCandidate c2cand (some [c2item]) ≠
      [toResolvedPlace c2item (mkRat 9 10)] := by
  refine ⟨by decide, by decide, by decide, by decide⟩

/-- C2 amended: when the hint filter eliminates every lookup match of a
candidate, that candidate is skipped and contributes zero resolved places;
there is no fall-back to the unfiltered match list. -/
theorem geocode_filter_eliminates_all_skips
    (c : Candidate) (items : List GeoMatch)
    (h : filterByHints c items = []) :
    processCandidate c (some items) = [] := by
  simp [processCandidate, h]

/-- Witness for the amended C2 at the counterexample input. -/
theorem geocode_filter_eliminates_all_skips_witness :
    filterByHints c2cand [c2item] = [] ∧
    processCandidate c2cand (some [c2item]) = [] :=
  ⟨by decide, geocode_filter_eliminates_all_skips c2cand [c2item] (by decide)⟩

/-! ## C3: matches with missing or non-numeric coordinates -/

/-- C3 counterexample: the match with the missing latitude is not excluded —
it becomes the 0.9-confidence resolved place with NaN latitude and stays in
the geocoded list, and the resolve call then fails as a whole with the 400
validation error instead of emitting the remaining numeric match. -/
theorem geocode_invalid_coordinate_match_kept :
    c3bad.latitude = none ∧
    (toResolvedPlace c3bad (mkRat 9 10)).lat = none ∧
    geocodeCandidates c3pairs =
      [toResolvedPlace c3bad (mkRat 9 10), toResolvedPlace c3good (mkRat 6 10)] ∧
    postResolve [c3pairs] = Except.error 400 := by
  refine ⟨by decide, by decide, by decide, by decide⟩

/-- C3 amended: a match with missing or non-numeric coordinates is not
dropped; the candidate resolved places are exactly the first up-to-3 surviving
matches with their coordinates coerced (NaN for invalid ones). A successful
resolve response contains no non-numeric coordinates only because the final
schema validation fails the entire request whenever such a place reaches the
returned top-5 list. -/
theorem geocode_invalid_coordinates_not_dropped
    (c : Candidate) (items : List GeoMatch)
    (attempts : List (List (Candidate × Option (List GeoMatch))))
    (top : ResolvedPlace) (rest : List ResolvedPlace)
    (h : postResolve attempts = Except.ok (top, rest)) :
    (processCandidate c (some items)).map (fun p => (p.lat, p.lon)) =
      ((filterByHints c items).take 3).map
        (fun m => (coerceNum m.latitude, coerceNum m.longitude)) ∧
    ∀ p ∈ top :: rest, p.lat.isSome ∧ p.lon.isSome := by
  constructor
  · cases hf : filterByHints c items with
    | nil => simp [processCandidate, hf]
    | cons x xs =>
      simp only [processCandidate, hf, List.take_succ_cons, List.map_cons,
        List.map_map]
      rfl
  · unfold postResolve at h
    split at h
    · simp at h
    · rename_i t r
      split at h
      · rename_i hc
        simp only [Except.ok.injEq, Prod.mk.injEq] at h
        obtain ⟨ht, hr⟩ := h
        subst ht; subst hr
        simp only [Bool.and_eq_true] at hc
        obtain ⟨hc1, hc2⟩ := hc
        intro p hp
        rcases List.mem_cons.mp hp with hp | hp
        · subst hp
          simp only [placeNumericOk, Bool.and_eq_true] at hc1
          exact hc1
        · have hall := List.all_eq_true.mp hc2 p hp
          simp only [placeNumericOk, Bool.and_eq_true] at hall
          exact hall
      · simp at h

/-- Witness for the amended C3 at concrete inputs. -/
theorem geocode_invalid_coordinates_not_dropped_witness :
    postResolve [c3wpairs] = Except.ok (toResolvedPlace c3wm (mkRat 9 10), []) ∧
    ((processCandidate c3cand (some [c3bad, c3good])).map (fun p => (p.lat, p.lon)) =
      ((filterByHints c3cand [c3bad, c3good]).take 3).map
        (fun m => (coerceNum m.latitude, coerceNum m.longitude)) ∧
    ∀ p ∈ toResolvedPlace c3wm (mkRat 9 10) :: ([] : List ResolvedPlace),
      p.lat.isSome ∧ p.lon.isSome) :=
  ⟨by decide,
    geocode_invalid_coordinates_not_dropped c3cand [c3bad, c3good] [c3wpairs]
      (toResolvedPlace c3wm (mkRat 9 10)) [] (by decide)⟩

/-! ## C5: exponential backoff formula -/

theorem runRetryAux_sleeps_length (cfg : RetryCfg) :
    ∀ (os : List Outcome) (attempt : ℕ) (lastR lastE : Option ℕ),
      (runRetryAux cfg attempt lastR lastE os).1.length ≤ os.length := by
  intro os
  induction os with
  | nil =>
    intro attempt lastR lastE
    unfold runRetryAux
    rcases lastR with _ | s
    · rcases lastE with _ | e <;> simp
    · simp
  | cons o rest ih =>
    intro attempt lastR lastE
    unfold runRetryAux
    rcases o with s | e
    · by_cases hc : (!(respOk s) && cfg.retryOnResp s && decide (attempt < cfg.maxRetries)) = true
      · simp only [hc, if_true, List.length_cons]
        exact Nat.succ_le_succ (ih (attempt + 1) (some s) lastE)
      · simp only [Bool.not_eq_true] at hc
        simp [hc]
    · by_cases hc : (cfg.retryOnErr e && decide (attempt < cfg.maxRetries)) = true
      · simp only [hc, if_true, List.length_cons]
        exact Nat.succ_le_succ (ih (attempt + 1) lastR (some e))
      · simp only [Bool.not_eq_true] at hc
        simp [hc]

theorem runRetryAux_sleep_eq (cfg : RetryCfg) :
    ∀ (os : List Outcome) (attempt : ℕ) (lastR lastE : Option ℕ) (k : ℕ),
      k < (runRetryAux cfg attempt lastR lastE os).1.length →
      (runRetryAux cfg attempt lastR lastE os).1.getD k 0 =
        sleepFor cfg (attempt + k) (os.getD k (Outcome.err 0)) := by
  intro os
  induction os with
  | nil =>
    intro attempt lastR lastE k hk
    exfalso
    unfold runRetryAux at hk
    rcases lastR with _ | s
    · rcases lastE with _ | e <;> simp at hk
    · simp at hk
  | cons o rest ih =>
    intro attempt lastR lastE k hk
    rcases o with s | e
    · by_cases hc : (!(respOk s) && cfg.retryOnResp s && decide (attempt < cfg.maxRetries)) = true
      · unfold runRetryAux at hk ⊢
        simp only [hc, if_true] at hk ⊢
        rcases k with _ | k
        · simp [sleepFor, backoffDelay]
        · simp only [List.getD_cons_succ, List.length_cons] at hk ⊢
          rw [ih (attempt + 1) (some s) lastE k (Nat.lt_of_succ_lt_succ hk)]
          congr 1
          omega
      · exfalso
        unfold runRetryAux at hk
        simp only [Bool.not_eq_true] at hc
        simp [hc] at hk
    · by_cases hc : (cfg.retryOnErr e && decide (attempt < cfg.maxRetries)) = true
      · unfold runRetryAux at hk ⊢
        simp only [hc, if_true] at hk ⊢
        rcases k with _ | k
        · simp [sleepFor, backoffDelay]
        · simp only [List.getD_cons_succ, List.length_cons] at hk ⊢
          rw [ih (attempt + 1) lastR (some e) k (Nat.lt_of_succ_lt_succ hk)]
          congr 1
          omega
      · exfalso
        unfold runRetryAux at hk
        simp only [Bool.not_eq_true] at hc
        simp [hc] at hk

/-- C5: in fetchWithRetry the sleep performed after failing attempt k
(0-indexed) equals min(initialDelay * 2 ^ k, maxDelay), doubled exactly once
more when the failing outcome is a response with HTTP status 429 (a transport
error never doubles, having no status). -/
theorem fetchWithRetry_backoff (cfg : RetryCfg) (trace : List Outcome) (k : ℕ)
    (hk : k < (fetchWithRetry cfg trace).1.length) :
    (fetchWithRetry cfg trace).1.getD k 0 =
      match (trace.take (cfg.maxRetries + 1)).getD k (Outcome.err 0) with
      | Outcome.resp s =>
        if s = 429 then min (cfg.initialDelay * 2 ^ k) cfg.maxDelay * 2
        else min (cfg.initialDelay * 2 ^ k) cfg.maxDelay
      | Outcome.err _ => min (cfg.initialDelay * 2 ^ k) cfg.maxDelay := by
  unfold fetchWithRetry at hk ⊢
  have h := runRetryAux_sleep_eq cfg (trace.take (cfg.maxRetries + 1)) 0 none none k hk
  rw [h]
  rcases (trace.take (cfg.maxRetries + 1)).getD k (Outcome.err 0) with s | e
  · simp [sleepFor, backoffDelay]
  · simp [sleepFor, backoffDelay]

/-- Witness for C5 at a concrete trace: the sleep after the rate-limited
attempt 1 is min(500 * 2, 16000) * 2 = 2000. -/
theorem fetchWithRetry_backoff_witness :
    1 < (fetchWithRetry c5cfg [Outcome.resp 503, Outcome.resp 429, Outcome.resp 200]).1.length ∧
    (fetchWithRetry c5cfg [Outcome.resp 503, Outcome.resp 429, Outcome.resp 200]).1.getD 1 0 =
      match (([Outcome.resp 503, Outcome.resp 429, Outcome.resp 200] : List Outcome).take (c5cfg.maxRetries + 1)).getD 1 (Outcome.err 0) with
      | Outcome.resp s =>
        if s = 429 then min (c5cfg.initialDelay * 2 ^ 1) c5cfg.maxDelay * 2
        else min (c5cfg.initialDelay * 2 ^ 1) c5cfg.maxDelay
      | Outcome.err _ => min (c5cfg.initialDelay * 2 ^ 1) c5cfg.maxDelay :=
  ⟨by decide,
    fetchWithRetry_backoff c5cfg [Outcome.resp 503, Outcome.resp 429, Outcome.resp 200] 1 (by decide)⟩

/-! ## C6: behaviour when the retry budget is exhausted -/

theorem runRetryAux_exhaust (cfg : RetryCfg) :
    ∀ (os : List Outcome), os ≠ [] →
      ∀ (attempt : ℕ) (lastR lastE : Option ℕ),
        (∀ o ∈ os, retryable cfg o = true) →
        attempt + os.length = cfg.maxRetries + 1 →
        (runRetryAux cfg attempt lastR lastE os).2 = lastOutcomeResult os := by
  intro os
  induction os with
  | nil => intro hne; exact absurd rfl hne
  | cons o rest ih =>
    intro _ attempt lastR lastE hall hlen
    rcases rest with _ | ⟨o2, rest2⟩
    · have ha : attempt = cfg.maxRetries := by
        simp only [List.length_cons, List.length_nil] at hlen
        omega
      rcases o with s | e
      · have hr := hall (Outcome.resp s) (List.mem_cons_self _ _)
        unfold runRetryAux
        have hcond : (!(respOk s) && cfg.retryOnResp s && decide (attempt < cfg.maxRetries)) = false := by
          subst ha; simp
        simp [hcond, lastOutcomeResult]
      · unfold runRetryAux
        have hcond : (cfg.retryOnErr e && decide (attempt < cfg.maxRetries)) = false := by
          subst ha; simp
        simp [hcond, lastOutcomeResult]
    · have ha : attempt < cfg.maxRetries := by
        simp only [List.length_cons] at hlen
        omega
      have hrest : (o2 :: rest2) ≠ ([] : List Outcome) := by simp
      have hallrest : ∀ x ∈ o2 :: rest2, retryable cfg x = true := by
        intro x hx; exact hall x (List.mem_cons_of_mem _ hx)
      have hlenrest : (attempt + 1) + (o2 :: rest2).length = cfg.maxRetries + 1 := by
        simp only [List.length_cons] at hlen ⊢
        omega
      rcases o with s | e
      · have hr := hall (Outcome.resp s) (List.mem_cons_self _ _)
        simp only [retryable] at hr
        unfold runRetryAux
        have hcond : (!(respOk s) && cfg.retryOnResp s && decide (attempt < cfg.maxRetries)) = true := by
          simp [ha, Bool.and_eq_true] at hr ⊢
          exact hr
        simp only [hcond, if_true]
        rw [ih hrest (attempt + 1) (some s) lastE hallrest hlenrest]
        simp [lastOutcomeResult, List.getLast?_cons_cons]
      · have hr := hall (Outcome.err e) (List.mem_cons_self _ _)
        simp only [retryable] at hr
        unfold runRetryAux
        have hcond : (cfg.retryOnErr e && decide (attempt < cfg.maxRetries)) = true := by
          simp [ha, hr]
        simp only [hcond, if_true]
        rw [ih hrest (attempt + 1) lastR (some e) hallrest hlenrest]
        simp [lastOutcomeResult, List.getLast?_cons_cons]

theorem runRetryAux_ret_mem (cfg : RetryCfg) :
    ∀ (os : List Outcome) (attempt : ℕ) (lastR lastE : Option ℕ) (s : ℕ),
      (runRetryAux cfg attempt lastR lastE os).2 = RetryResult.ret s →
      Outcome.resp s ∈ os ∨ lastR = some s := by
  intro os
  induction os with
  | nil =>
    intro attempt lastR lastE s h
    unfold runRetryAux at h
    rcases lastR with _ | s2
    · rcases lastE with _ | e <;> simp at h
    · simp only [RetryResult.ret.injEq] at h
      right; rw [h]
  | cons o rest ih =>
    intro attempt lastR lastE s h
    rcases o with s2 | e
    · by_cases hc : (!(respOk s2) && cfg.retryOnResp s2 && decide (attempt < cfg.maxRetries)) = true
      · unfold runRetryAux at h
        simp only [hc, if_true] at h
        rcases ih (attempt + 1) (some s2) lastE s h with hm | hm
        · exact Or.inl (List.mem_cons_of_mem _ hm)
        · simp only [Option.some.injEq] at hm
          subst hm
          exact Or.inl (List.mem_cons_self _ _)
      · unfold runRetryAux at h
        simp only [Bool.not_eq_true] at hc
        simp only [hc] at h
        simp only [Bool.false_eq_true, if_false, RetryResult.ret.injEq] at h
        subst h
        exact Or.inl (List.mem_cons_self _ _)
    · by_cases hc : (cfg.retryOnErr e && decide (attempt < cfg.maxRetries)) = true
      · unfold runRetryAux at h
        simp only [hc, if_true] at h
        rcases ih (attempt + 1) lastR (some e) s h with hm | hm
        · exact Or.inl (List.mem_cons_of_mem _ hm)
        · exact Or.inr hm
      · unfold runRetryAux at h
        simp only [Bool.not_eq_true] at hc
        simp [hc] at h

/-- C6 counterexample: attempt 0 receives a 500 response and attempt 1 (the
last of the budget) fails with a transport error. A response was received
during the call, yet fetchWithRetry throws the transport error instead of
returning the last received response, because the final outcome alone decides
the result. -/
theorem fetchWithRetry_throws_despite_response :
    fetchWithRetry c6cfg [Outcome.resp 500, Outcome.err 7] =
      ([100], RetryResult.thrown 7) ∧
    Outcome.resp 500 ∈ ([Outcome.resp 500, Outcome.err 7] : List Outcome) ∧
    (fetchWithRetry c6cfg [Outcome.resp 500, Outcome.err 7]).2 ≠
      RetryResult.ret 500 := by
  refine ⟨by decide, by decide, by decide⟩

/-- C6 amended: when every attempt of the full budget fails with a retryable
outcome, the result of fetchWithRetry is decided by the final attempt alone —
a response from the final attempt is returned even when non-OK, an error from
the final attempt is thrown even when an earlier attempt received a response.
The layer never synthesizes a success: any returned status was actually
received by some attempt. -/
theorem fetchWithRetry_exhaustion (cfg : RetryCfg) (trace : List Outcome)
    (hlen : trace.length = cfg.maxRetries + 1)
    (hall : ∀ o ∈ trace, retryable cfg o = true) :
    (fetchWithRetry cfg trace).2 = lastOutcomeResult trace ∧
    ∀ s, (fetchWithRetry cfg trace).2 = RetryResult.ret s →
      Outcome.resp s ∈ trace := by
  have htake : trace.take (cfg.maxRetries + 1) = trace := by
    apply List.take_of_length_le
    omega
  constructor
  · unfold fetchWithRetry
    rw [htake]
    apply runRetryAux_exhaust
    · intro hnil
      rw [hnil] at hlen
      simp at hlen
    · exact hall
    · omega
  · intro s hs
    unfold fetchWithRetry at hs
    rw [htake] at hs
    rcases runRetryAux_ret_mem cfg trace 0 none none s hs with hm | hm
    · exact hm
    · simp at hm

/-- Witness for the amended C6 at a concrete exhausted run: two retryable
responses, the second (a 503) is returned. -/
theorem fetchWithRetry_exhaustion_witness :
    ([Outcome.resp 500, Outcome.resp 503] : List Outcome).length = c6cfg.maxRetries + 1 ∧
    (∀ o ∈ ([Outcome.resp 500, Outcome.resp 503] : List Outcome), retryable c6cfg o = true) ∧
    ((fetchWithRetry c6cfg [Outcome.resp 500, Outcome.resp 503]).2 =
        lastOutcomeResult [Outcome.resp 500, Outcome.resp 503] ∧
      ∀ s, (fetchWithRetry c6cfg [Outcome.resp 500, Outcome.resp 503]).2 = RetryResult.ret s →
        Outcome.resp s ∈ ([Outcome.resp 500, Outcome.resp 503] : List Outcome)) :=
  ⟨by decide, by decide,
    fetchWithRetry_exhaustion c6cfg [Outcome.resp 500, Outcome.resp 503]
      (by decide) (by decide)⟩

/-! ## C7: extractor fallback candidate -/

/-- C7 counterexample: the query begins with a whitespace delimiter, so
query.split(/[,\s]+/)[0] is the empty string and the || query fallback names
the synthesized candidate after the entire raw query, not after its first
whitespace- or comma-delimited token. The query is valid input, having
length at least 1. -/
theorem fallback_name_not_first_token :
    fallbackCandidates (" Paris") [] =
      [{ name := " Paris", admin1 := none, country := none }] ∧
    firstTokenSpec (" Paris") = "Paris" ∧
    (" Paris" : String) ≠ "Paris" ∧
    (" Paris" : String).length = 6 := by
  refine ⟨by decide, by decide, by decide, by decide⟩

/-- C7 amended: when the extractor yields zero usable candidates, exactly one
fallback candidate with no region or country hints is synthesized and the
attempt continues; its name is the first whitespace- or comma-delimited token
of the raw query whenever the query starts with a non-delimiter character, and
it falls back to the entire raw query when the leading split piece is empty. -/
theorem fallback_candidate_synthesized (query : String)
    (extracted : List Candidate) (h : extracted = []) :
    fallbackCandidates query extracted =
      [{ name := fallbackName query, admin1 := none, country := none }] ∧
    (jsSplitFirst query ≠ "" → fallbackName query = firstTokenSpec query) ∧
    (jsSplitFirst query = "" → fallbackName query = query) := by
  refine ⟨?_, ?_, ?_⟩
  · subst h
    simp [fallbackCandidates]
  · intro hne
    have hbeq : (jsSplitFirst query == "") = false := by
      simp only [beq_eq_false_iff_ne, ne_eq]
      exact hne
    unfold fallbackName
    rw [hbeq]
    simp only [Bool.false_eq_true, if_false]
    unfold jsSplitFirst at hne ⊢
    unfold firstTokenSpec
    congr 1
    rcases hdata : query.data with _ | ⟨ch, t⟩
    · exfalso
      apply hne
      rw [hdata]
      rfl
    · rcases hdel : isDelimChar ch with _ | _
      · simp [List.dropWhile, hdel]
      · exfalso
        apply hne
        rw [hdata]
        simp [List.takeWhile, hdel]
  · intro heq
    unfold fallbackName
    rw [heq]
    simp

/-- Witness for the amended C7 at a concrete query: the fallback candidate for
a query that starts with a non-delimiter character is named after its first
token. -/
theorem fallback_candidate_synthesized_witness :
    ([] : List Candidate) = [] ∧
    (fallbackCandidates ("New York") [] =
        [{ name := fallbackName ("New York"), admin1 := none, country := none }] ∧
      (jsSplitFirst ("New York") ≠ "" →
        fallbackName ("New York") = firstTokenSpec ("New York")) ∧
      (jsSplitFirst ("New York") = "" →
        fallbackName ("New York") = ("New York" : String))) :=
  ⟨rfl, fallback_candidate_synthesized ("New York") [] rfl⟩

/-! ## C8: temperature band coverage -/

/-- C8: for every high temperature from -50 to 150 inclusive, the band lookup
selects exactly one band — the first band whose ceiling is at least the high
temperature (the selected band admits the temperature and has the least
ceiling among admitting bands, and the bands ascend) — and that band carries a
non-empty base item list. -/
theorem band_coverage (t : ℚ) (h1 : -50 ≤ t) (h2 : t ≤ 150) :
    ∃ b, temperatureBands.find? (fun b => decide (t ≤ b.max)) = some b ∧
      t ≤ b.max ∧ b.items ≠ [] ∧
      ∀ b2 ∈ temperatureBands, t ≤ b2.max → b.max ≤ b2.max := by
  unfold temperatureBands
  rcases le_or_lt t 40 with h40 | h40
  · rw [List.find?_cons_of_pos _ (by simpa using h40)]
    refine ⟨_, rfl, h40, by simp, ?_⟩
    intro b2 hb2 hmax
    fin_cases hb2 <;> simp_all <;> norm_num
  · rcases le_or_lt t 55 with h55 | h55
    · rw [List.find?_cons_of_neg _ (by simp; linarith),
        List.find?_cons_of_pos _ (by simpa using h55)]
      refine ⟨_, rfl, h55, by simp, ?_⟩
      intro b2 hb2 hmax
      fin_cases hb2 <;> simp_all <;> linarith
    · rcases le_or_lt t 72 with h72 | h72
      · rw [List.find?_cons_of_neg _ (by simp; linarith),
          List.find?_cons_of_neg _ (by simp; linarith),
          List.find?_cons_of_pos _ (by simpa using h72)]
        refine ⟨_, rfl, h72, by simp, ?_⟩
        intro b2 hb2 hmax
        fin_cases hb2 <;> simp_all <;> linarith
      · rcases le_or_lt t 84 with h84 | h84
        · rw [List.find?_cons_of_neg _ (by simp; linarith),
            List.find?_cons_of_neg _ (by simp; linarith),
            List.find?_cons_of_neg _ (by simp; linarith),
            List.find?_cons_of_pos _ (by simpa using h84)]
          refine ⟨_, rfl, h84, by simp, ?_⟩
          intro b2 hb2 hmax
          fin_cases hb2 <;> simp_all <;> linarith
        · have h200 : t ≤ 200 := by linarith
          rw [List.find?_cons_of_neg _ (by simp; linarith),
            List.find?_cons_of_neg _ (by simp; linarith),
            List.find?_cons_of_neg _ (by simp; linarith),
            List.find?_cons_of_neg _ (by simp; linarith),
            List.find?_cons_of_pos _ (by simpa using h200)]
          refine ⟨_, rfl, h200, by simp, ?_⟩
          intro b2 hb2 hmax
          fin_cases hb2 <;> simp_all <;> linarith

/-- Witness for C8 at the concrete high temperature 60. -/
theorem band_coverage_witness :
    ((-50 : ℚ) ≤ 60 ∧ (60 : ℚ) ≤ 150) ∧
    ∃ b, temperatureBands.find? (fun b => decide ((60 : ℚ) ≤ b.max)) = some b ∧
      (60 : ℚ) ≤ b.max ∧ b.items ≠ [] ∧
      ∀ b2 ∈ temperatureBands, (60 : ℚ) ≤ b2.max → b.max ≤ b2.max :=
  ⟨by decide, band_coverage 60 (by decide) (by decide)⟩

/-! ## C9: the notes step never alters the item lists -/

theorem buildAdvice_outfit_map (notes : List String) :
    ∀ (i : ℕ) (l : List (DayForecast × List String)),
      (buildAdvice notes i l).map DayAdvice.outfit = l.map Prod.snd := by
  intro i l
  induction l generalizing i with
  | nil => simp [buildAdvice]
  | cons d rest ih =>
    obtain ⟨df, items⟩ := d
    simp [buildAdvice, ih]

/-- C9: for every generate-outfits request the item list returned for each day
equals exactly the deterministic rule engine output for that day and persona,
whatever the outcome of the separate notes-generation step (including its
failure, when the fallback note is used): the notes step never adds, removes,
reorders or rewrites any item. -/
theorem outfits_items_authoritative (days : List DayForecast)
    (persona : Option String) (llm : Option (List String)) :
    (generateOutfits days persona llm).map DayAdvice.outfit =
      days.map (fun d => generateOutfitItems d persona) := by
  unfold generateOutfits
  rw [buildAdvice_outfit_map]
  rw [List.map_map]
  rfl

/-! ## C10: totality of the outfit item generator -/

theorem personaAdjustments_comfortable (p : String)
    (repl : String → Option String) (h : personaAdjustments p = some repl) :
    repl "comfortable clothes" = none := by
  unfold personaAdjustments at h
  split_ifs at h
  all_goals simp only [Option.some.injEq] at h
  all_goals subst h
  all_goals decide

theorem applyPersona_ne_nil (persona : Option String) (l : List String)
    (h : l ≠ []) : applyPersona persona l ≠ [] := by
  unfold applyPersona
  rcases persona with _ | p
  · exact h
  · show (match personaAdjustments p with
      | none => l
      | some repl => l.map (fun item => (repl item).getD item)) ≠ []
    rcases hpa : personaAdjustments p with _ | repl
    · exact h
    · simpa using h

theorem applyPersona_comfortable_mem (persona : Option String)
    (t : List String) :
    "comfortable clothes" ∈ applyPersona persona ("comfortable clothes" :: t) := by
  unfold applyPersona
  rcases persona with _ | p
  · exact List.mem_cons_self _ _
  · show "comfortable clothes" ∈
      (match personaAdjustments p with
       | none => "comfortable clothes" :: t
       | some repl =>
         ("comfortable clothes" :: t).map (fun item => (repl item).getD item))
    rcases hpa : personaAdjustments p with _ | repl
    · exact List.mem_cons_self _ _
    · simp only [List.map_cons]
      rw [personaAdjustments_comfortable p repl hpa]
      simp only [Option.getD_none]
      exact List.mem_cons_self _ _

theorem dedupByKey_id_cons (a : String) (l : List String) :
    ∃ t, dedupByKey id (a :: l) = a :: t := by
  refine ⟨dedupByKeyAux id [id a] l, ?_⟩
  simp [dedupByKey, dedupByKeyAux]

theorem dedupByKey_ne_nil {α κ : Type} [DecidableEq κ] (key : α → κ)
    (l : List α) (h : l ≠ []) : dedupByKey key l ≠ [] := by
  rcases l with _ | ⟨a, t⟩
  · exact absurd rfl h
  · simp [dedupByKey, dedupByKeyAux]

theorem temperatureBands_items_ne_nil :
    ∀ b ∈ temperatureBands, b.items ≠ [] := by decide

theorem baseItemsFor_ne_nil (day : DayForecast) : baseItemsFor day ≠ [] := by
  unfold baseItemsFor
  rcases hf : temperatureBands.find? (fun b => decide (day.highF ≤ b.max)) with _ | b
  · rw [hf]; simp
  · rw [hf]
    exact temperatureBands_items_ne_nil b (List.mem_of_find?_eq_some hf)

/-- C10: the outfit item generator is total. When the day high temperature
exceeds every band ceiling (beyond 200) the band lookup finds no band and the
non-empty fallback base list takes its place, surviving deduplication and the
persona substitution; and for every numeric input the returned item list is
non-empty — the missing-band branch never produces an error. -/
theorem outfit_engine_total (day : DayForecast) (persona : Option String) :
    ((200 : ℚ) < day.highF →
      temperatureBands.find? (fun b => decide (day.highF ≤ b.max)) = none ∧
      "comfortable clothes" ∈ generateOutfitItems day persona) ∧
    generateOutfitItems day persona ≠ [] := by
  constructor
  · intro hhot
    have hfind : temperatureBands.find? (fun b => decide (day.highF ≤ b.max)) = none := by
      unfold temperatureBands
      rw [List.find?_cons_of_neg _ (by simp; linarith),
        List.find?_cons_of_neg _ (by simp; linarith),
        List.find?_cons_of_neg _ (by simp; linarith),
        List.find?_cons_of_neg _ (by simp; linarith),
        List.find?_cons_of_neg _ (by simp; linarith)]
      rfl
    refine ⟨hfind, ?_⟩
    unfold generateOutfitItems
    have hbase : baseItemsFor day = ["comfortable clothes"] := by
      unfold baseItemsFor
      rw [hfind]
    rw [hbase]
    simp only [List.cons_append, List.nil_append]
    obtain ⟨t, ht⟩ := dedupByKey_id_cons "comfortable clothes" (additionalItemsFor day)
    rw [ht]
    exact applyPersona_comfortable_mem persona t
  · unfold generateOutfitItems
    apply applyPersona_ne_nil
    apply dedupByKey_ne_nil
    intro happ
    exact baseItemsFor_ne_nil day (List.append_eq_nil.mp happ).1

/-- Witness for C10 at a concrete forecast beyond the last band ceiling. -/
theorem outfit_engine_total_witness :
    (200 : ℚ) < c10day.highF ∧
    (temperatureBands.find? (fun b => decide (c10day.highF ≤ b.max)) = none ∧
      "comfortable clothes" ∈ generateOutfitItems c10day (some ("street"))) ∧
    generateOutfitItems c10day (some ("street")) ≠ [] :=
  ⟨by decide, (outfit_engine_total c10day (some ("street"))).1 (by decide),
    (outfit_engine_total c10day (some ("street"))).2⟩
